import Mathlib

/-!
Verification of the meex packet codec and stream engine.

This file is a shallow embedding, in Lean 4, of the parts of the meex
repository (Go) that the checked properties talk about:

* the framing scanner (`Scan` / `scanPackets` in `scan.go`, driven by a
  `bufio.Scanner` whose maximum token size is `MaxBufferSize`),
* the `Gap` record and the TM / PD / VMU packet decoders with their
  `Diff`, `Error`, `Id`, `Sequence` and `Data` operations (from `scan.go`
  and the duplicated draft in `src/unnamed/part_013`),
* the deduplicating writer (`noDuplicateWriter` in `rw.go`),
* the two-input time-window merger (`Merger.Merge` in
  `src/unnamed/part_009`).

Go byte slices are modelled as `List Byte` with `Byte := Fin 256`;
unsigned machine integers read from buffers are modelled as `Nat` (with
an explicit `% 2 ^ 32` where a `uint32` accumulator can wrap); Go `int`
values that take part in subtraction (`Gap` sequence fields) are
modelled as `Int`.  Go `time.Time` values are modelled as natural
numbers (the codec claims below never mix the two mission epochs, only
compare and truncate instants).  A Go function that can panic is
modelled as an `Option`-returning function, `none` standing for the
panic.
-/

/-- Bytes of a record, as stored in Go byte slices. -/
abbrev Byte := Fin 256

/-- `binary.LittleEndian.Uint32` of the first four bytes (0 when the
list is shorter, which the decoders below never rely on). -/
def le32 (bs : List Byte) : Nat :=
  match bs with
  | b0 :: b1 :: b2 :: b3 :: _ =>
      b0.val + b1.val * 256 + b2.val * 65536 + b3.val * 16777216
  | _ => 0

/-- `binary.LittleEndian.Uint16` of the first two bytes. -/
def le16 (bs : List Byte) : Nat :=
  match bs with
  | b0 :: b1 :: _ => b0.val + b1.val * 256
  | _ => 0

/-- `binary.LittleEndian.Uint64` of the first eight bytes. -/
def le64 (bs : List Byte) : Nat :=
  match bs with
  | b0 :: b1 :: b2 :: b3 :: b4 :: b5 :: b6 :: b7 :: _ =>
      b0.val + b1.val * 2 ^ 8 + b2.val * 2 ^ 16 + b3.val * 2 ^ 24 +
      b4.val * 2 ^ 32 + b5.val * 2 ^ 40 + b6.val * 2 ^ 48 + b7.val * 2 ^ 56
  | _ => 0

/-- `binary.BigEndian.Uint16` of the first two bytes. -/
def be16 (bs : List Byte) : Nat :=
  match bs with
  | b0 :: b1 :: _ => b0.val * 256 + b1.val
  | _ => 0

/-- `binary.BigEndian.Uint32` of the first four bytes. -/
def be32 (bs : List Byte) : Nat :=
  match bs with
  | b0 :: b1 :: b2 :: b3 :: _ =>
      b0.val * 16777216 + b1.val * 65536 + b2.val * 256 + b3.val
  | _ => 0

/-- `binary.BigEndian.Uint64` of the first eight bytes; reaching past
the end of the slice is a bounds panic in Go, modelled by `none`. -/
def be64 (bs : List Byte) : Option Nat :=
  match bs with
  | b0 :: b1 :: b2 :: b3 :: b4 :: b5 :: b6 :: b7 :: _ =>
      some (b0.val * 2 ^ 56 + b1.val * 2 ^ 48 + b2.val * 2 ^ 40 +
            b3.val * 2 ^ 32 + b4.val * 2 ^ 24 + b5.val * 2 ^ 16 +
            b6.val * 2 ^ 8 + b7.val)
  | _ => none

/-- Byte at index `i` of a slice (the decoders below only use it inside
bounds established by their length guards). -/
def nth (bs : List Byte) (i : Nat) : Nat :=
  (bs.getD i (0 : Byte)).val

/-- `MaxBufferSize = 8 << 20` (scan.go line 19): the maximum token size
handed to the `bufio.Scanner` in `Scan`. -/
def MaxBufferSize : Nat := 8 <<< 20

/-- How a scan of a byte source ends: clean end of stream, or the fatal
`bufio.ErrTooLong` raised when `MaxBufferSize` bytes are buffered and
`scanPackets` still cannot produce a token. -/
inductive ScanEnd where
  | eof      : ScanEnd
  | tooLong  : ScanEnd
deriving DecidableEq

/-- The framing scanner of `scan.go`: `Scan` wraps a `bufio.Scanner`
with split function `scanPackets` and maximum token size
`MaxBufferSize`.  `scanPackets` asks for more data until it holds
`size + 4` bytes, where `size` is the little-endian u32 in the first
four bytes, and then emits a copy of that record.  Running the scanner
over a whole byte source therefore emits records greedily:

* fewer than 4 bytes left: `scanPackets` cannot read a size and the
  scanner stops at end of stream;
* `size + 4` bytes available and `size + 4 ≤ MaxBufferSize`: one frame
  of exactly `size + 4` bytes is emitted and scanning continues behind
  it (a token larger than the maximum buffer can never be assembled);
* otherwise: if the remaining input fits in the buffer the scanner hits
  end of stream without emitting (truncated trailing record), and if it
  does not — `MaxBufferSize` bytes get buffered with no token — the
  scan fails with `bufio.ErrTooLong`. -/
def scanRun (input : List Byte) : List (List Byte) × ScanEnd :=
  if input.length < 4 then ([], ScanEnd.eof)
  else
    let need := le32 input + 4
    if need ≤ input.length ∧ need ≤ MaxBufferSize then
      let rest := scanRun (input.drop need)
      (input.take need :: rest.1, rest.2)
    else if input.length < MaxBufferSize then ([], ScanEnd.eof)
    else ([], ScanEnd.tooLong)
termination_by input.length
decreasing_by
  simp only [List.length_drop]
  omega

/-- Concatenation of records into one byte source (the on-disk RT file
layout: records laid end to end). -/
def concatRecords (rs : List (List Byte)) : List Byte :=
  rs.foldr (fun r acc => r ++ acc) []

/-- A record whose leading 4-byte little-endian size field agrees with
its length: the record occupies `size + 4` bytes. -/
def goodRecord (r : List Byte) : Prop :=
  r.length = 4 + le32 r

instance (r : List Byte) : Decidable (goodRecord r) := by
  unfold goodRecord; infer_instance

/-! ### Gap and the TM packet (scan.go, with the draft variant of
`src/unnamed/part_013`) -/

/-- Fixed header lengths (scan.go lines 21-28). -/
def HRDLHeaderLen : Nat := 18

/-- VMU framing header length. -/
def VMUHeaderLen : Nat := 24

/-- PTH header length. -/
def PTHHeaderLen : Nat := 10

/-- CCSDS primary header length. -/
def CCSDSHeaderLen : Nat := 6

/-- ESA header length. -/
def ESAHeaderLen : Nat := 10

/-- UMI header length. -/
def UMIHeaderLen : Nat := 25

/-- A sequence discontinuity (`Gap` in scan.go).  Sequence numbers are
Go `int`s, so `First`/`Last` are modelled as `Int`; `Starts`/`Ends` are
instants. -/
structure Gap where
  Id     : Int
  Starts : Nat
  Ends   : Nat
  Last   : Int
  First  : Int
deriving DecidableEq

/-- `Gap.Missing` (scan.go lines 125-131): `d := First - Last`, negate
if negative — the absolute difference, with no `- 1`. -/
def Gap.Missing (g : Gap) : Int :=
  let d := g.First - g.Last
  if d < 0 then -d else d

/-- A TM packet, keeping the header fields its operations read: the raw
CCSDS `version`/`fragment` words, the ESA source and acquisition
instant, and the PTH reception instant. -/
structure TMPacket where
  version  : Nat
  fragment : Nat
  source   : Nat
  acqTime  : Nat
  recTime  : Nat
  payload  : List Byte
deriving DecidableEq

/-- `CCSDSHeader.Apid`: low 11 bits of the version word. -/
def TMPacket.Apid (t : TMPacket) : Nat := t.version &&& 0x07FF

/-- `CCSDSHeader.Sequence`: low 14 bits of the fragment word. -/
def TMPacket.Sequence (t : TMPacket) : Nat := t.fragment &&& 0x3FFF

/-- `TMPacket.Error` (scan.go line 421): TM packets are never
errored. -/
def TMPacket.Error (_ : TMPacket) : Bool := false

/-- Straight-line part of `TMPacket.Diff` (scan.go lines 466-479),
reached once the receiver `t` is the chronologically later packet: the
expected next sequence is `o.Sequence()+1`, wrapped to 0 past
`2^14 - 1`; an exact match means no gap, anything else produces a
`Gap` with `First = t.Sequence()` and `Last = o.Sequence()`. -/
def TMPacket.diffAfter (t o : TMPacket) : Option Gap :=
  let s := o.Sequence + 1
  let s := if s > (1 <<< 14) - 1 then 0 else s
  if t.Sequence = s then none
  else some { Id := t.Apid, Starts := o.acqTime, Ends := t.acqTime,
              First := t.Sequence, Last := o.Sequence }

/-- `TMPacket.Diff` (scan.go lines 459-480).  When the argument is
chronologically later the source re-dispatches as `o.Diff(t)` — whose
own swap test is then false — so the swap recursion is one step deep
and is written out here.  (The cross-variant and nil guards of the
source are outside this TM-only model.) -/
def TMPacket.Diff (t o : TMPacket) : Option Gap :=
  if t.acqTime < o.acqTime then TMPacket.diffAfter o t
  else TMPacket.diffAfter t o

/-- Straight-line part of the draft `TMPacket.Diff`
(`src/unnamed/part_013` lines 903-913), for a chronologically later
receiver with matching APID: no gap when
`(t.Sequence() - o.Sequence()) & 0x3FFF <= 1` (Go `int` two's
complement AND, i.e. the difference modulo `2^14`). -/
def TMPacket.diffAfterP13 (t o : TMPacket) : Option Gap :=
  if ((t.Sequence : Int) - o.Sequence) % 16384 ≤ 1 then none
  else some { Id := t.Apid, Starts := o.acqTime, Ends := t.acqTime,
              First := t.Sequence, Last := o.Sequence }

/-- `TMPacket.Diff` of the duplicated draft (`src/unnamed/part_013`
lines 896-914): requires equal APIDs, then swaps on chronology exactly
as the scan.go variant (again one level deep, written out). -/
def TMPacket.DiffP13 (t o : TMPacket) : Option Gap :=
  if t.Apid ≠ o.Apid then none
  else if t.acqTime < o.acqTime then TMPacket.diffAfterP13 o t
  else TMPacket.diffAfterP13 t o

/-! ### The PD (UMI) packet -/

/-- The UMI header (scan.go lines 202-234): size LE u32, state u8,
orbit BE u32, 6-byte code, value type u8, unit BE u16, acquisition
time5, len BE u16.  The acquisition instant is omitted: no claim below
reads it (its decoding goes through the float-valued `readTime5`). -/
structure UMIHeader where
  size  : Nat
  state : Nat
  orbit : Nat
  code  : List Byte
  typ   : Nat
  unit  : Nat
  len   : Nat
deriving DecidableEq

/-- A PD packet: decoded UMI header plus the full frame. -/
structure PDPacket where
  UMI     : UMIHeader
  Payload : List Byte
deriving DecidableEq

/-- `DecodePD` (scan.go lines 241-257): frames shorter than
`UMIHeaderLen` are a short-buffer failure, otherwise the header is
unmarshalled at its fixed offsets. -/
def DecodePD (bs : List Byte) : Option PDPacket :=
  if bs.length < UMIHeaderLen then none
  else some {
    UMI := {
      size  := le32 bs,
      state := nth bs 4,
      orbit := be32 (bs.drop 5),
      code  := (bs.drop 9).take 6,
      typ   := nth bs 15,
      unit  := be16 (bs.drop 16),
      len   := be16 (bs.drop 23) },
    Payload := bs }

/-- `PDPacket.Error` (scan.go lines 259-261): errored iff the orbit
field is nonzero. -/
def PDPacket.Error (p : PDPacket) : Bool := p.UMI.orbit ≠ 0

/-- `PDPacket.Sequence` (scan.go lines 286-288): PD packets have no
sequence counter. -/
def PDPacket.Sequence (_ : PDPacket) : Nat := 0

/-- `PDPacket.Id` of the duplicated draft (`src/unnamed/part_013`
lines 610-614): the 48-bit UMI code
`(BigEndian.Uint16(code[:2]) << 32) | BigEndian.Uint32(code[2:])`,
paired with `code[0]`. -/
def PDPacket.IdP13 (p : PDPacket) : Nat × Nat :=
  let high := (be16 (p.UMI.code.take 2)) <<< 32
  let low := be32 (p.UMI.code.drop 2)
  (high ||| low, nth p.UMI.code 0)

/-- `PDPacket.Id` of scan.go (lines 281-284): it evaluates
`binary.BigEndian.Uint64(p.UMI.Code[:])` on the 6-byte code array —
an out-of-bounds read, i.e. a runtime panic, modelled by `be64`
returning `none`. -/
def PDPacket.IdScanGo (p : PDPacket) : Option (Nat × Nat) :=
  (be64 p.UMI.code).map (fun c => (nth p.UMI.code 0, c))

/-! ### The VMU (HRDL) packet, from the duplicated draft
`src/unnamed/part_013` (scan.go carries the same header layout; its
`Error` differs, see below) -/

/-- The HRDL link header (18 bytes): size LE u32, error BE u16,
payload u8, channel u8, then two time5 instants (omitted, unused by
the claims). -/
structure HRDLHeader where
  size        : Nat
  error       : Nat
  payloadType : Nat
  channel     : Nat
deriving DecidableEq

/-- The VMU framing header (24 bytes, all little-endian): word u32,
size u32, channel u8, origin u8, spare, sequence u32, time6
acquisition (omitted), spare. -/
structure VMUHeader where
  word     : Nat
  size     : Nat
  channel  : Nat
  origin   : Nat
  sequence : Nat
deriving DecidableEq

/-- A VMU packet (`VMUPacket` in part_013): both headers, the full
frame, the trailing little-endian u32 `Sum` and the byte-sum `Control`
accumulated by `decodeVMU` over `[HRDLHeaderLen+8 .. len-4)` in a
`uint32`. -/
structure VMUPacket where
  HRH     : HRDLHeader
  VMU     : VMUHeader
  Payload : List Byte
  Sum     : Nat
  Control : Nat
deriving DecidableEq

/-- `decodeVMU` (part_013 lines 1262-1287): frames shorter than
`HRDLHeaderLen + VMUHeaderLen` are a short-buffer failure; otherwise
both headers are unmarshalled, `Sum` is the trailing LE u32 and
`Control` the wrapping byte-sum over offsets `26 ≤ i < len - 4`. -/
def decodeVMU (bs : List Byte) : Option VMUPacket :=
  if bs.length < HRDLHeaderLen + VMUHeaderLen then none
  else some {
    HRH := {
      size        := le32 bs,
      error       := be16 (bs.drop 4),
      payloadType := nth bs 6,
      channel     := nth bs 7 },
    VMU := {
      word     := le32 (bs.drop 18),
      size     := le32 (bs.drop 22),
      channel  := nth bs 26,
      origin   := nth bs 27,
      sequence := le32 (bs.drop 30) },
    Payload := bs,
    Sum     := le32 (bs.drop (bs.length - 4)),
    Control := (((bs.drop 26).take (bs.length - 30)).map Fin.val).sum % 2 ^ 32 }

/-- `VMUPacket.Error` as scan.go defines it (lines 586-588): only the
HRDL error field is consulted. -/
def VMUPacket.ErrorScanGo (v : VMUPacket) : Bool := v.HRH.error ≠ 0

/-- `VMUPacket.Error` as part_013 defines it (lines 1304-1309): HRDL
error field nonzero, or trailing sum differing from the computed
control. -/
def VMUPacket.ErrorP13 (v : VMUPacket) : Bool :=
  if v.HRH.error ≠ 0 then true else v.Sum ≠ v.Control

/-- `VMUPacket.Valid` (scan.go lines 655-665): recompute the byte-sum
over `[HRDLHeaderLen+8 .. len-4)` and compare with the trailing LE
u32. -/
def VMUPacket.Valid (v : VMUPacket) : Bool :=
  (((v.Payload.drop 26).take (v.Payload.length - 30)).map Fin.val).sum % 2 ^ 32
    = le32 (v.Payload.drop (v.Payload.length - 4))

/-- VMU channel enumeration (part_013 lines 959-963). -/
def ChannelVic1 : Nat := 1

/-- Second video channel. -/
def ChannelVic2 : Nat := 2

/-- Science-data channel. -/
def ChannelLRSD : Nat := 3

/-- The VMU common sub-header (`VMUCommonHeader`): property u8, stream
LE u16, counter LE u32, acquisition and auxiliary nanosecond times LE
i64 (kept as raw 64-bit words), origin u8, 32-byte UPI, and the
validity flag injected by `Data()`. -/
structure VMUCommonHeader where
  property : Nat
  stream   : Nat
  counter  : Nat
  acqTime  : Nat
  auxTime  : Nat
  origin   : Nat
  upi      : List Byte
  valid    : Bool
deriving DecidableEq

/-- The image sub-header (`VMUImageHeader`): format u8, pixels LE u32,
region LE u64, dropped LE u16, scaling LE u32, force u8. -/
structure VMUImageHeader where
  format    : Nat
  pixels    : Nat
  region    : Nat
  dropCount : Nat
  scaling   : Nat
  force     : Nat
deriving DecidableEq

/-- An image packet (`Image` in part_013). -/
structure Image where
  common  : VMUCommonHeader
  img     : VMUImageHeader
  Payload : List Byte
deriving DecidableEq

/-- A science-table packet (`Table` in part_013). -/
structure Table where
  common  : VMUCommonHeader
  Payload : List Byte
deriving DecidableEq

/-- The two VMU sub-kinds (`HRPacket`). -/
inductive HRPacket where
  | image : Image → HRPacket
  | table : Table → HRPacket
deriving DecidableEq

/-- `decodeImage` (part_013 lines 1087-1118): common header at offsets
0..23, image sub-header at 24..43, UPI at 44..75.  Every
`binary.Read` error is ignored by the source; the only checked failure
is `io.ReadFull` on the UPI, which fails exactly when fewer than
44+32 bytes are available. -/
def decodeImage (bs : List Byte) (valid : Bool) : Option Image :=
  if bs.length < 76 then none
  else some {
    common := {
      property := nth bs 0,
      stream   := le16 (bs.drop 1),
      counter  := le32 (bs.drop 3),
      acqTime  := le64 (bs.drop 7),
      auxTime  := le64 (bs.drop 15),
      origin   := nth bs 23,
      upi      := (bs.drop 44).take 32,
      valid    := valid },
    img := {
      format    := nth bs 24,
      pixels    := le32 (bs.drop 25),
      region    := le64 (bs.drop 29),
      dropCount := le16 (bs.drop 37),
      scaling   := le32 (bs.drop 39),
      force     := nth bs 43 },
    Payload := bs }

/-- `decodeTable` (part_013 lines 1150-1173): common header at offsets
0..23, UPI at 24..55; fails exactly when fewer than 24+32 bytes are
available. -/
def decodeTable (bs : List Byte) (valid : Bool) : Option Table :=
  if bs.length < 56 then none
  else some {
    common := {
      property := nth bs 0,
      stream   := le16 (bs.drop 1),
      counter  := le32 (bs.drop 3),
      acqTime  := le64 (bs.drop 7),
      auxTime  := le64 (bs.drop 15),
      origin   := nth bs 23,
      upi      := (bs.drop 24).take 32,
      valid    := valid },
    Payload := bs }

/-- `VMUPacket.Data` (part_013 lines 1289-1302): dispatch on the VMU
channel with `valid := Control == Sum`.  The Boolean of the result is
the Go `err != nil`.  The `default:` arm of the source switch is
empty, so an unrecognised channel leaves both results at their zero
values: no packet and no error. -/
def VMUPacket.Data (v : VMUPacket) : Option HRPacket × Bool :=
  let valid := v.Control = v.Sum
  if v.VMU.channel = ChannelVic1 ∨ v.VMU.channel = ChannelVic2 then
    match decodeImage (v.Payload.drop (HRDLHeaderLen + VMUHeaderLen)) valid with
    | some i => (some (HRPacket.image i), false)
    | none => (none, true)
  else if v.VMU.channel = ChannelLRSD then
    match decodeTable (v.Payload.drop (HRDLHeaderLen + VMUHeaderLen)) valid with
    | some t => (some (HRPacket.table t), false)
    | none => (none, true)
  else (none, false)

/-! ### The deduplicating writer (`noDuplicateWriter`, rw.go lines
185-204) -/

/-- State of a `noDuplicateWriter`: the set of digests of records
already written, and the downstream sink (an in-order list of the byte
slices actually forwarded).  The Go set holds `md5.Sum` digests; the
digest of a record is a function of its bytes, modelled here by keying
the set with the record bytes themselves. -/
structure NDState where
  sums : List (List Byte)
  sink : List (List Byte)
deriving DecidableEq

/-- `NoDuplicate` (rw.go lines 190-195): a fresh writer with an empty
digest set wrapping an empty sink. -/
def NoDuplicate : NDState :=
  { sums := [], sink := [] }

/-- `noDuplicateWriter.Write` (rw.go lines 197-204): a record whose
digest was already seen reports `len(bs)` without touching the sink;
otherwise the digest is recorded and the record forwarded. -/
def noDuplicateWrite (w : NDState) (bs : List Byte) : NDState × Nat :=
  if bs ∈ w.sums then (w, bs.length)
  else ({ sums := bs :: w.sums, sink := w.sink ++ [bs] }, bs.length)

/-! ### The two-input time-window merger (`Merger.Merge`,
`src/unnamed/part_009` lines 104-251) -/

/-- `Five = 5 * time.Minute`; instants are modelled in seconds. -/
def Five : Nat := 300

/-- A packet as the merger consumes it: its acquisition instant and
its raw frame bytes. -/
structure MPacket where
  ts    : Nat
  bytes : List Byte
deriving DecidableEq

/-- Merge statistics (`MergeStats`): rogue and written counts, written
byte size, and the window bounds. -/
structure MergeStats where
  Rogue  : Nat
  Count  : Nat
  Size   : Nat
  Starts : Nat
  Ends   : Nat
deriving DecidableEq

/-- `isRogue` (part_009 lines 206-208): a timestamp outside the
half-open window `[low, high)` — before `low`, equal to `high`, or
after `high`. -/
def isRogue (t low high : Nat) : Bool :=
  decide (t < low) || decide (t = high) || decide (high < t)

/-- `Merger.scanUntil` (part_009 lines 210-220): pop packets sharing
timestamp `t`; the first packet that does not share it (or `none` at
end of stream) is handed back as the new head, with the rest of the
stream. -/
def scanUntil (t : Nat) (queue : List MPacket) :
    List MPacket × Option MPacket × List MPacket :=
  match queue with
  | [] => ([], none, [])
  | p :: rest =>
    if p.ts = t then
      let r := scanUntil t rest
      (p :: r.1, r.2.1, r.2.2)
    else ([], some p, rest)

/-- Insert into a sorted prefix, used by `sortPackets`. -/
def insertPacket (less : MPacket → MPacket → Bool) (p : MPacket) :
    List MPacket → List MPacket
  | [] => [p]
  | q :: qs => if less p q then p :: q :: qs else q :: insertPacket less p qs

/-- The `sort.Slice(ps, less)` call of the tie-handling branch
(part_009 line 166), modelled as an insertion sort parameterised by
the packet family's `Less` (the source sort is unstable; no claim
below exercises an unstable tie). -/
def sortPackets (less : MPacket → MPacket → Bool) :
    List MPacket → List MPacket
  | [] => []
  | p :: ps => insertPacket less p (sortPackets less ps)

/-- One `m.writer.Write(p.Bytes())` through the deduplicating writer,
with the `Count`/`Size` bookkeeping of the merge loop. -/
def writePacket (p : MPacket) (ms : MergeStats) (w : NDState) :
    MergeStats × NDState :=
  let r := noDuplicateWrite w p.bytes
  ({ ms with Count := ms.Count + 1, Size := ms.Size + r.2 }, r.1)

/-- Write a list of packets in order. -/
def writePackets (ps : List MPacket) (ms : MergeStats) (w : NDState) :
    MergeStats × NDState :=
  ps.foldl (fun st p => writePacket p st.1 st.2) (ms, w)

/-- `Merger.drain` (part_009 lines 222-240): write the pending packet,
then every remaining packet of the stream. -/
def drain (p : Option MPacket) (queue : List MPacket)
    (ms : MergeStats) (w : NDState) : MergeStats × NDState :=
  let st :=
    match p with
    | some q => writePacket q ms w
    | none => (ms, w)
  queue.foldl (fun st p => writePacket p st.1 st.2) st

/-- 1 for a pending packet, 0 for an exhausted stream: the part of the
merge-loop termination measure contributed by a held packet. -/
def optW : Option MPacket → Nat
  | none => 0
  | some _ => 1

theorem scanUntil_measure (t : Nat) (q : List MPacket) :
    optW (scanUntil t q).2.1 + (scanUntil t q).2.2.length ≤ q.length := by
  induction q with
  | nil => simp [scanUntil, optW]
  | cons p rest ih =>
    by_cases h : p.ts = t
    · simp only [scanUntil, h, if_true, List.length_cons]
      omega
    · simp only [scanUntil, if_neg h, optW, List.length_cons]
      omega

/-- The main loop of `Merger.Merge` (part_009 lines 130-203), with
`p0`/`p1` the pending packet of each stream (`none` = exhausted) and
`src`/`tgt` the not-yet-read remainders.  Rogue heads are counted and
skipped; equal timestamps gather every packet sharing the instant from
both sides, sort them by `less` and write them all; otherwise the
earlier head is written and its stream advanced; an exhausted stream
drains the other unconditionally. -/
def mergeLoop (less : MPacket → MPacket → Bool) (low high : Nat)
    (p0 : Option MPacket) (src : List MPacket)
    (p1 : Option MPacket) (tgt : List MPacket)
    (ms : MergeStats) (w : NDState) : MergeStats × NDState :=
  match p0, p1 with
  | none, _ => drain p1 tgt ms w
  | some q0, none => drain (some q0) src ms w
  | some q0, some q1 =>
    if isRogue q0.ts low high then
      match src with
      | [] => drain (some q1) tgt { ms with Rogue := ms.Rogue + 1 } w
      | p :: rest =>
          mergeLoop less low high (some p) rest (some q1) tgt
            { ms with Rogue := ms.Rogue + 1 } w
    else if isRogue q1.ts low high then
      match tgt with
      | [] => drain (some q0) src { ms with Rogue := ms.Rogue + 1 } w
      | p :: rest =>
          mergeLoop less low high (some q0) src (some p) rest
            { ms with Rogue := ms.Rogue + 1 } w
    else if q0.ts = q1.ts then
      let r0 := scanUntil q0.ts src
      let r1 := scanUntil q1.ts tgt
      let ps := sortPackets less (q0 :: q1 :: (r0.1 ++ r1.1))
      let st := writePackets ps ms w
      if r0.2.1 = none ∧ r1.2.1 = none then st
      else mergeLoop less low high r0.2.1 r0.2.2 r1.2.1 r1.2.2 st.1 st.2
    else if q0.ts < q1.ts then
      let st := writePacket q0 ms w
      match src with
      | [] => drain (some q1) tgt st.1 st.2
      | p :: rest => mergeLoop less low high (some p) rest (some q1) tgt st.1 st.2
    else
      let st := writePacket q1 ms w
      match tgt with
      | [] => drain (some q0) src st.1 st.2
      | p :: rest => mergeLoop less low high (some q0) src (some p) rest st.1 st.2
termination_by src.length + tgt.length + optW p0 + optW p1
decreasing_by
  · simp only [optW, List.length_cons]; omega
  · simp only [optW, List.length_cons]; omega
  · have h0 := scanUntil_measure q0.ts src
    have h1 := scanUntil_measure q1.ts tgt
    simp only [optW] at h0 h1 ⊢
    omega
  · simp only [optW, List.length_cons]; omega
  · simp only [optW, List.length_cons]; omega

/-- `Merger.Merge` (part_009 lines 112-128 init + loop): read one
packet from each stream, default the span, then compute the window
origin by truncating **the second stream's first packet timestamp** —
dereferenced *before* the both-streams-empty guard, so an empty second
stream is a nil-pointer panic (`none`).  The result is the statistics
and the final writer state (a fresh `NoDuplicate` per `NewMerger`). -/
def Merger.Merge (less : MPacket → MPacket → Bool)
    (src tgt : List MPacket) (span : Nat) :
    Option (MergeStats × NDState) :=
  let p0 := src.head?
  let p1 := tgt.head?
  let sp := if span = 0 then Five else span
  match p1 with
  | none => none
  | some q1 =>
    let low := q1.ts - q1.ts % sp
    let high := low + sp
    some (mergeLoop less low high p0 src.tail (some q1) tgt.tail
      { Rogue := 0, Count := 0, Size := 0, Starts := low, Ends := high }
      NoDuplicate)

/-! ### Concrete inputs used by the checked properties -/

/-- A well-prefixed record one byte longer than `MaxBufferSize`:
size field 0x7FFFFD, total length 8388609. -/
def bigRecordA : List Byte :=
  (0xFD : Byte) :: (0xFF : Byte) :: (0x7F : Byte) :: (0 : Byte) ::
    List.replicate 8388605 (0 : Byte)

/-- A well-prefixed 9 MiB record (size field 0x900000, total length
9437188): under the 32 MiB limit the specification describes, over the
8 MiB limit the code enforces. -/
def bigRecordB : List Byte :=
  (0 : Byte) :: (0 : Byte) :: (0x90 : Byte) :: (0 : Byte) ::
    List.replicate 9437184 (0 : Byte)

/-- A well-framed 42-byte VMU record with `HRH.error = 0` whose
trailing little-endian sum (1) disagrees with the byte-sum control
over `[26 .. 38)` (2, from the single nonzero interior byte at offset
26). -/
def cxFrameC3 : List Byte :=
  List.replicate 26 (0 : Byte) ++ [2] ++ List.replicate 11 (0 : Byte) ++ [1, 0, 0, 0]

/-- A well-framed 118-byte VMU record whose VMU channel byte (offset
26) is 4 — not VIC1/VIC2/LRSD. -/
def cxFrameC7 : List Byte :=
  List.replicate 26 (0 : Byte) ++ [4] ++ List.replicate 91 (0 : Byte)


theorem writePacket_Starts (p : MPacket) (ms : MergeStats) (w : NDState) :
    (writePacket p ms w).1.Starts = ms.Starts := rfl

theorem writePacket_Ends (p : MPacket) (ms : MergeStats) (w : NDState) :
    (writePacket p ms w).1.Ends = ms.Ends := rfl

theorem foldlWrite_Starts (ps : List MPacket) :
    ∀ st : MergeStats × NDState,
      (ps.foldl (fun st p => writePacket p st.1 st.2) st).1.Starts = st.1.Starts := by
  induction ps with
  | nil => intro st; rfl
  | cons p ps ih => intro st; rw [List.foldl_cons, ih, writePacket_Starts]

theorem foldlWrite_Ends (ps : List MPacket) :
    ∀ st : MergeStats × NDState,
      (ps.foldl (fun st p => writePacket p st.1 st.2) st).1.Ends = st.1.Ends := by
  induction ps with
  | nil => intro st; rfl
  | cons p ps ih => intro st; rw [List.foldl_cons, ih, writePacket_Ends]

theorem writePackets_Starts (ps : List MPacket) (ms : MergeStats) (w : NDState) :
    (writePackets ps ms w).1.Starts = ms.Starts := foldlWrite_Starts ps (ms, w)

theorem writePackets_Ends (ps : List MPacket) (ms : MergeStats) (w : NDState) :
    (writePackets ps ms w).1.Ends = ms.Ends := foldlWrite_Ends ps (ms, w)

theorem drain_Starts (p : Option MPacket) (queue : List MPacket)
    (ms : MergeStats) (w : NDState) :
    (drain p queue ms w).1.Starts = ms.Starts := by
  unfold drain
  match p with
  | some q => rw [foldlWrite_Starts, writePacket_Starts]
  | none => exact foldlWrite_Starts queue (ms, w)

theorem drain_Ends (p : Option MPacket) (queue : List MPacket)
    (ms : MergeStats) (w : NDState) :
    (drain p queue ms w).1.Ends = ms.Ends := by
  unfold drain
  match p with
  | some q => rw [foldlWrite_Ends, writePacket_Ends]
  | none => exact foldlWrite_Ends queue (ms, w)

theorem mergeLoop_window (less : MPacket → MPacket → Bool) (low high : Nat)
    (p0 : Option MPacket) (src : List MPacket)
    (p1 : Option MPacket) (tgt : List MPacket)
    (ms : MergeStats) (w : NDState) :
    (mergeLoop less low high p0 src p1 tgt ms w).1.Starts = ms.Starts ∧
    (mergeLoop less low high p0 src p1 tgt ms w).1.Ends = ms.Ends := by
  induction p0, src, p1, tgt, ms, w using mergeLoop.induct less low high
  case case7 src tgt ms w q0 q1 h3 h2 h1 r0 r1 h =>
    have h' : (scanUntil q0.ts src).2.1 = none ∧ (scanUntil q1.ts tgt).2.1 = none := h
    rw [mergeLoop.eq_def]
    simp only [Bool.not_eq_true] at h3 h2
    simp only [h3, h2, if_false, Bool.false_eq_true]
    rw [if_pos h1, if_pos h']
    exact ⟨writePackets_Starts _ _ _, writePackets_Ends _ _ _⟩
  case case8 src tgt ms w q0 q1 h3 h2 h1 r0 r1 ps st h ih =>
    have h' : ¬((scanUntil q0.ts src).2.1 = none ∧ (scanUntil q1.ts tgt).2.1 = none) := h
    rw [mergeLoop.eq_def]
    simp only [Bool.not_eq_true] at h3 h2
    simp only [h3, h2, if_false, Bool.false_eq_true]
    rw [if_pos h1, if_neg h']
    exact ⟨ih.1.trans (writePackets_Starts _ _ _), ih.2.trans (writePackets_Ends _ _ _)⟩
  case case9 tgt ms w q0 q1 h3 h2 h1 h =>
    rw [mergeLoop.eq_def]
    simp only [Bool.not_eq_true] at h3 h2
    simp only [h3, h2, if_false, Bool.false_eq_true]
    rw [if_neg h1, if_pos h]
    exact ⟨(drain_Starts _ _ _ _).trans (writePacket_Starts _ _ _),
           (drain_Ends _ _ _ _).trans (writePacket_Ends _ _ _)⟩
  case case10 tgt ms w q0 q1 h3 h2 h1 h st p rest ih =>
    rw [mergeLoop.eq_def]
    simp only [Bool.not_eq_true] at h3 h2
    simp only [h3, h2, if_false, Bool.false_eq_true]
    rw [if_neg h1, if_pos h]
    exact ⟨ih.1.trans (writePacket_Starts _ _ _), ih.2.trans (writePacket_Ends _ _ _)⟩
  case case11 src ms w q0 q1 h3 h2 h1 h =>
    rw [mergeLoop.eq_def]
    simp only [Bool.not_eq_true] at h3 h2
    simp only [h3, h2, if_false, Bool.false_eq_true]
    rw [if_neg h1, if_neg (by omega : ¬ q0.ts < q1.ts)]
    exact ⟨(drain_Starts _ _ _ _).trans (writePacket_Starts _ _ _),
           (drain_Ends _ _ _ _).trans (writePacket_Ends _ _ _)⟩
  case case12 src ms w q0 q1 h3 h2 h1 h st p rest ih =>
    rw [mergeLoop.eq_def]
    simp only [Bool.not_eq_true] at h3 h2
    simp only [h3, h2, if_false, Bool.false_eq_true]
    rw [if_neg h1, if_neg (by omega : ¬ q0.ts < q1.ts)]
    exact ⟨ih.1.trans (writePacket_Starts _ _ _), ih.2.trans (writePacket_Ends _ _ _)⟩
  all_goals
    rw [mergeLoop.eq_def]
    simp_all [drain_Starts, drain_Ends, writePacket_Starts, writePacket_Ends,
              writePackets_Starts, writePackets_Ends]

/-! ### Helper lemmas about the framing scanner -/

theorem le32_append (r s : List Byte) (h : 4 ≤ r.length) :
    le32 (r ++ s) = le32 r := by
  match r, h with
  | b0 :: b1 :: b2 :: b3 :: r', _ => rfl

theorem le32_take (l : List Byte) (n : Nat) (h : 4 ≤ n) :
    le32 (l.take n) = le32 l := by
  match l with
  | a :: b :: c :: d :: l' =>
    match n, h with
    | (m + 4), _ => rfl
  | [] => simp
  | [a] =>
    have hl : ([a] : List Byte).length ≤ n := by simp; omega
    rw [List.take_of_length_le hl]
  | [a, b] =>
    have hl : ([a, b] : List Byte).length ≤ n := by simp; omega
    rw [List.take_of_length_le hl]
  | [a, b, c] =>
    have hl : ([a, b, c] : List Byte).length ≤ n := by simp; omega
    rw [List.take_of_length_le hl]

theorem scanRun_truncated (tail : List Byte) (h : tail.length < 4 + le32 tail) :
    (scanRun tail).1 = [] := by
  rw [scanRun]
  by_cases h4 : tail.length < 4
  · simp [h4]
  · have : ¬ (le32 tail + 4 ≤ tail.length ∧ le32 tail + 4 ≤ MaxBufferSize) := by
      intro ⟨h1, _⟩; omega
    simp only [h4, if_false, this, if_false]
    split <;> simp

theorem scanRun_record (r rest : List Byte) (hg : goodRecord r)
    (hm : r.length ≤ MaxBufferSize) :
    scanRun (r ++ rest) = ((r :: (scanRun rest).1), (scanRun rest).2) := by
  have h4 : 4 ≤ r.length := by unfold goodRecord at hg; omega
  have hlen : (r ++ rest).length = r.length + rest.length := by simp
  have hle : le32 (r ++ rest) = le32 r := le32_append r rest h4
  rw [scanRun]
  have hneed : le32 (r ++ rest) + 4 = r.length := by
    rw [hle]; unfold goodRecord at hg; omega
  have hnotlt : ¬ (r ++ rest).length < 4 := by omega
  have hg4 : r.length = 4 + le32 r := hg
  simp only [hnotlt, if_false, hneed]
  rw [if_pos ⟨by omega, by omega⟩, List.take_left, List.drop_left]

theorem scanRun_roundtrip (rs : List (List Byte)) (tail : List Byte)
    (hr : ∀ r ∈ rs, goodRecord r ∧ r.length ≤ MaxBufferSize)
    (ht : tail.length < 4 + le32 tail) :
    (scanRun (concatRecords rs ++ tail)).1 = rs := by
  induction rs with
  | nil => simpa [concatRecords] using scanRun_truncated tail ht
  | cons r rs' ih =>
    have hr' : goodRecord r ∧ r.length ≤ MaxBufferSize := hr r (by simp)
    have : concatRecords (r :: rs') ++ tail = r ++ (concatRecords rs' ++ tail) := by
      simp [concatRecords]
    rw [this, scanRun_record r _ hr'.1 hr'.2]
    simp only [List.cons.injEq, true_and]
    exact ih (fun q hq => hr q (by simp [hq]))

theorem scanRun_discipline_aux :
    ∀ n (input : List Byte), input.length ≤ n →
      ∀ f ∈ (scanRun input).1, f.length = 4 + le32 f := by
  intro n
  induction n with
  | zero =>
    intro input hlen f hf
    rw [scanRun] at hf
    simp only [show input.length < 4 by omega, if_true] at hf
    simp at hf
  | succ m ih =>
    intro input hlen f hf
    rw [scanRun] at hf
    by_cases h4 : input.length < 4
    · simp [h4] at hf
    · simp only [h4, if_false] at hf
      by_cases hc : le32 input + 4 ≤ input.length ∧ le32 input + 4 ≤ MaxBufferSize
      · simp only [hc, and_self, if_true, List.mem_cons] at hf
        rcases hf with hf | hf
        · subst hf
          have hlt : le32 input + 4 ≤ input.length := hc.1
          rw [List.length_take, le32_take _ _ (by omega)]
          omega
        · exact ih (input.drop (le32 input + 4)) (by simp; omega) f hf
      · simp only [hc, if_false] at hf
        split at hf <;> simp at hf

theorem scanRun_discipline (input : List Byte) :
    ∀ f ∈ (scanRun input).1, f.length = 4 + le32 f :=
  scanRun_discipline_aux input.length input le_rfl

theorem scanRun_tooLong (input : List Byte)
    (hbig : MaxBufferSize ≤ input.length)
    (hneed : MaxBufferSize < 4 + le32 input) :
    scanRun input = ([], ScanEnd.tooLong) := by
  rw [scanRun]
  have h4 : ¬ input.length < 4 := by
    have : (4:Nat) ≤ MaxBufferSize := by decide
    omega
  have hc : ¬ (le32 input + 4 ≤ input.length ∧ le32 input + 4 ≤ MaxBufferSize) := by
    intro ⟨_, h⟩; omega
  simp only [h4, if_false, hc, if_false]
  rw [if_neg (by omega)]

theorem bigRecordA_le32 : le32 bigRecordA = 8388605 := rfl

theorem bigRecordA_len : bigRecordA.length = 8388609 := by
  unfold bigRecordA
  rw [List.length_cons, List.length_cons, List.length_cons, List.length_cons,
      List.length_replicate]

theorem bigRecordA_good : goodRecord bigRecordA := by
  unfold goodRecord
  rw [bigRecordA_len, bigRecordA_le32]

/-- C1 counterexample: a single record whose size field agrees with
its length but whose length (8388609) exceeds `MaxBufferSize` is a
concatenation of well-prefixed records on which the scanner emits
nothing (it fails with `ErrTooLong`), refuting the unqualified
round-trip claim. -/
theorem C1_oversized_record_counterexample :
    goodRecord bigRecordA ∧
    (scanRun (concatRecords [bigRecordA])).1 = [] ∧
    (scanRun (concatRecords [bigRecordA])).1 ≠ [bigRecordA] := by
  have hconcat : concatRecords [bigRecordA] = bigRecordA := by
    unfold concatRecords
    rw [List.foldr_cons, List.foldr_nil, List.append_nil]
  have hrun : scanRun bigRecordA = ([], ScanEnd.tooLong) :=
    scanRun_tooLong bigRecordA
      (by rw [bigRecordA_len]; decide)
      (by rw [bigRecordA_le32]; decide)
  refine ⟨bigRecordA_good, ?_, ?_⟩
  · rw [hconcat, hrun]
  · rw [hconcat, hrun]
    exact fun h => List.noConfusion h

theorem bigRecordB_le32 : le32 bigRecordB = 9437184 := rfl

theorem bigRecordB_len : bigRecordB.length = 9437188 := by
  unfold bigRecordB
  rw [List.length_cons, List.length_cons, List.length_cons, List.length_cons,
      List.length_replicate]

/-- C6 counterexample: a well-prefixed 9 MiB record — comfortably
under the claimed 32 MiB limit — makes the scanner fail with
`ErrTooLong`: the limit `MaxBufferSize` is `8 << 20`, not `32 << 20`. -/
theorem C6_max_record_size_counterexample :
    goodRecord bigRecordB ∧ bigRecordB.length ≤ 32 <<< 20 ∧
    scanRun bigRecordB = ([], ScanEnd.tooLong) ∧ MaxBufferSize ≠ 32 <<< 20 := by
  refine ⟨?_, ?_, ?_, by decide⟩
  · unfold goodRecord; rw [bigRecordB_len, bigRecordB_le32]
  · rw [bigRecordB_len]; decide
  · exact scanRun_tooLong bigRecordB
      (by rw [bigRecordB_len]; decide)
      (by rw [bigRecordB_le32]; decide)

theorem Gap.Missing_eq_abs (g : Gap) : g.Missing = |g.First - g.Last| := by
  show (if g.First - g.Last < 0 then -(g.First - g.Last) else g.First - g.Last) = _
  by_cases hd : g.First - g.Last < 0
  · rw [if_pos hd, abs_of_neg hd]
  · rw [if_neg hd, abs_of_nonneg (by omega)]

/-- C2 counterexample: scenario S2 — TM packets with sequences 7 then
10 produce the gap `last = 7, first = 10`, but `Missing` returns
`|first - last| = 3`, not the claimed `|first - last| - 1 = 2`. -/
theorem C2_gap_missing_counterexample :
    (TMPacket.Diff ⟨0x1A2, 10, 0x11, 1, 0, []⟩ ⟨0x1A2, 7, 0x11, 0, 0, []⟩) =
      some { Id := 0x1A2, Starts := 0, Ends := 1, Last := 7, First := 10 } ∧
    (TMPacket.Diff ⟨0x1A2, 10, 0x11, 1, 0, []⟩ ⟨0x1A2, 7, 0x11, 0, 0, []⟩).map Gap.Missing
      = some 3 ∧
    ((3 : Int) ≠ |(10 : Int) - 7| - 1) := by
  refine ⟨by decide, by decide, by decide⟩

/-- C2 (amended): every `Gap` produced by the TM diff operation
carries `first` = the later packet's sequence, `last` = the earlier
packet's sequence, the two timestamps, and a derived
`missing = |first - last|` (with no `- 1`). -/
theorem C2_gap_missing :
    ∀ t o : TMPacket, o.acqTime ≤ t.acqTime →
      ∀ g, TMPacket.Diff t o = some g →
        g.First = t.Sequence ∧ g.Last = o.Sequence ∧
        g.Starts = o.acqTime ∧ g.Ends = t.acqTime ∧
        g.Missing = |(t.Sequence : Int) - (o.Sequence : Int)| := by
  intro t o hle g hg
  unfold TMPacket.Diff TMPacket.diffAfter at hg
  rw [if_neg (by omega)] at hg
  simp only [] at hg
  split at hg <;> split at hg <;>
    first
    | (rw [Option.some_inj] at hg
       subst hg
       exact ⟨rfl, rfl, rfl, rfl, by rw [Gap.Missing_eq_abs]⟩)
    | exact absurd hg (by simp)

/-- C4: for two TM packets of the same identity where the
chronologically earlier one has sequence `2^14 - 1 = 16383` and the
later one has sequence 0, `Diff` returns `none` in either calling
direction, in both the scan.go and the part_013 drafts: the TM
sequence counter wraps at `2^14`. -/
theorem C4_tm_sequence_wrap :
    ∀ e l : TMPacket, e.Sequence = 16383 → l.Sequence = 0 → e.acqTime ≤ l.acqTime →
      TMPacket.Diff l e = none ∧
      (e.acqTime < l.acqTime → TMPacket.Diff e l = none) ∧
      (e.Apid = l.Apid → TMPacket.DiffP13 l e = none) := by
  intro e l he hl hle
  refine ⟨?_, ?_, ?_⟩
  · unfold TMPacket.Diff
    rw [if_neg (by omega)]
    unfold TMPacket.diffAfter
    rw [he, hl]
    rw [if_pos (by decide)]
  · intro hlt
    unfold TMPacket.Diff
    rw [if_pos hlt]
    unfold TMPacket.diffAfter
    rw [he, hl]
    rw [if_pos (by decide)]
  · intro hap
    unfold TMPacket.DiffP13
    rw [if_neg (by simp [hap]), if_neg (by omega)]
    unfold TMPacket.diffAfterP13
    rw [if_pos (by rw [hl, he]; decide)]

/-- C9: the deduplicating writer is idempotent — writing the same
byte sequence twice leaves the sink (and the whole writer state)
exactly as writing it once, the repeat reports `len(bs)` without
writing, and a first occurrence is forwarded to the sink. -/
theorem C9_dedup_idempotent : ∀ (s : NDState) (bs : List Byte),
    (noDuplicateWrite (noDuplicateWrite s bs).1 bs).1 = (noDuplicateWrite s bs).1 ∧
    (noDuplicateWrite (noDuplicateWrite s bs).1 bs).2 = bs.length ∧
    (noDuplicateWrite s bs).2 = bs.length ∧
    (bs ∉ s.sums →
      (noDuplicateWrite s bs).1.sink = s.sink ++ [bs] ∧
      (noDuplicateWrite s bs).1.sums = bs :: s.sums) := by
  intro s bs
  by_cases h : bs ∈ s.sums
  · refine ⟨?_, ?_, ?_, fun hn => absurd h hn⟩ <;>
      simp [noDuplicateWrite, h]
  · have h2 : (noDuplicateWrite s bs).1 =
        { sums := bs :: s.sums, sink := s.sink ++ [bs] } := by
      simp [noDuplicateWrite, h]
    refine ⟨?_, ?_, ?_, fun _ => ⟨?_, ?_⟩⟩ <;>
      simp [noDuplicateWrite, h, h2]

/-- C9 witness: writing the record `[7]` twice into a fresh writer
equals writing it once, and the first write forwarded it. -/
theorem C9_dedup_idempotent_witness :
    (noDuplicateWrite (noDuplicateWrite ⟨[], []⟩ [7]).1 [7]).1 =
      (noDuplicateWrite ⟨[], []⟩ [7]).1 ∧
    (noDuplicateWrite ⟨[], []⟩ [7]).1.sink = [] ++ [[7]] :=
  ⟨(C9_dedup_idempotent ⟨[], []⟩ [7]).1, ((C9_dedup_idempotent ⟨[], []⟩ [7]).2.2.2 (by decide)).1⟩

/-- C10: `Merger.Merge` computes the window origin by dereferencing
the second stream's first packet before the both-streams-empty guard,
so every call whose second input yields no packets faults on a nil
packet (`none`), whatever the first input holds. -/
theorem C10_merge_empty_second_stream : ∀ (less : MPacket → MPacket → Bool) (src : List MPacket) (span : Nat),
    Merger.Merge less src [] span = none := by
  intro less src span
  rfl

/-- C3 counterexample: a well-framed VMU record with `HRH.error = 0`
and trailing sum 1 ≠ control 2 — scan.go's `Error()` still reports
`false`, refuting the claimed "or the checksum differs" clause for
that draft (part_013's `Error()` reports `true`). -/
theorem C3_error_flags_counterexample :
    (decodeVMU cxFrameC3).map VMUPacket.ErrorScanGo = some false ∧
    (decodeVMU cxFrameC3).map VMUPacket.ErrorP13 = some true ∧
    (decodeVMU cxFrameC3).map (fun v => v.HRH.error) = some 0 ∧
    (decodeVMU cxFrameC3).map (fun v => v.Sum) = some 1 ∧
    (decodeVMU cxFrameC3).map (fun v => v.Control) = some 2 := by
  refine ⟨by decide, by decide, by decide, by decide, by decide⟩

/-- C3 (amended): for every decoded VMU packet, part_013's `error()`
is true iff the HRDL error field (big-endian u16 at offset 4) is
nonzero OR the trailing little-endian u32 differs from the byte-sum
control over `[HRDL_LEN+8 .. len-4)`, while scan.go's `error()`
consults the HRDL error field alone; every decoded TM packet's
`error()` is false; every decoded PD packet's `error()` is true iff
the UMI orbit (big-endian u32 at offset 5) is nonzero. -/
theorem C3_error_flags :
    (∀ bs, 42 ≤ bs.length →
      (decodeVMU bs).map VMUPacket.ErrorP13 =
        some (decide (be16 (bs.drop 4) ≠ 0) ||
              decide (le32 (bs.drop (bs.length - 4)) ≠
                (((bs.drop 26).take (bs.length - 30)).map Fin.val).sum % 2 ^ 32)) ∧
      (decodeVMU bs).map VMUPacket.ErrorScanGo = some (decide (be16 (bs.drop 4) ≠ 0))) ∧
    (∀ t : TMPacket, t.Error = false) ∧
    (∀ bs, 25 ≤ bs.length →
      (DecodePD bs).map PDPacket.Error = some (decide (be32 (bs.drop 5) ≠ 0))) := by
  refine ⟨?_, fun t => rfl, ?_⟩
  · intro bs hlen
    unfold decodeVMU
    rw [if_neg (by unfold HRDLHeaderLen VMUHeaderLen; omega)]
    unfold VMUPacket.ErrorP13 VMUPacket.ErrorScanGo
    simp only [Option.map_some']
    constructor
    · by_cases h : be16 (bs.drop 4) ≠ 0
      · rw [if_pos h]
        simp [h]
      · rw [if_neg h]
        simp only [ne_eq, Decidable.not_not] at h
        simp [h]
    · trivial
  · intro bs hlen
    unfold DecodePD
    rw [if_neg (by unfold UMIHeaderLen; omega)]
    unfold PDPacket.Error
    simp only [Option.map_some']

/-- C7 counterexample: a well-framed VMU packet on channel 4 (not
VIC1/VIC2/LRSD) gets `(nil, nil)` from `Data()` — no packet and **no
error** — refuting the claimed decode failure. -/
theorem C7_vmu_data_dispatch_counterexample :
    (decodeVMU cxFrameC7).map VMUPacket.Data = some (none, false) ∧
    (decodeVMU cxFrameC7).map (fun v => v.VMU.channel) = some 4 ∧
    (decodeVMU cxFrameC7).map (fun v => v.Payload.length) = some 118 := by
  refine ⟨by decide, by decide, by decide⟩

/-- C7 (amended): `Data()` dispatches on the VMU channel — VIC1/VIC2
decode an `Image` (an error only when the remaining payload is shorter
than the 76-byte common+image+UPI layout), LRSD decodes a `Table`
(56-byte layout), and any other channel falls through the empty
`default:` arm, returning no packet and no error. -/
theorem C7_vmu_data_dispatch :
    ∀ bs v, decodeVMU bs = some v →
      ((v.VMU.channel ≠ ChannelVic1 ∧ v.VMU.channel ≠ ChannelVic2 ∧
          v.VMU.channel ≠ ChannelLRSD) → v.Data = (none, false)) ∧
      ((v.VMU.channel = ChannelVic1 ∨ v.VMU.channel = ChannelVic2) →
          (118 ≤ bs.length → ∃ i, v.Data = (some (HRPacket.image i), false)) ∧
          (bs.length < 118 → v.Data = (none, true))) ∧
      (v.VMU.channel = ChannelLRSD →
          (98 ≤ bs.length → ∃ tb, v.Data = (some (HRPacket.table tb), false)) ∧
          (bs.length < 98 → v.Data = (none, true))) := by
  intro bs v hv
  unfold decodeVMU at hv
  by_cases hlen : bs.length < HRDLHeaderLen + VMUHeaderLen
  · rw [if_pos hlen] at hv
    exact absurd hv (by simp)
  · rw [if_neg hlen] at hv
    rw [Option.some_inj] at hv
    subst hv
    unfold HRDLHeaderLen VMUHeaderLen at hlen
    refine ⟨?_, ?_, ?_⟩
    · intro ⟨h1, h2, h3⟩
      unfold VMUPacket.Data
      rw [if_neg (by intro hor; rcases hor with h | h; exact h1 h; exact h2 h),
          if_neg h3]
    · intro hc
      constructor
      · intro hbig
        cases himg : decodeImage
            ((List.drop (HRDLHeaderLen + VMUHeaderLen) bs))
            ((((bs.drop 26).take (bs.length - 30)).map Fin.val).sum % 2 ^ 32 =
              le32 (bs.drop (bs.length - 4))) with
        | none =>
          unfold decodeImage at himg
          rw [if_neg (by unfold HRDLHeaderLen VMUHeaderLen; simp; omega)] at himg
          exact absurd himg (by simp)
        | some i =>
          unfold VMUPacket.Data
          rw [if_pos hc, himg]
          exact ⟨i, rfl⟩
      · intro hshort
        cases himg : decodeImage
            ((List.drop (HRDLHeaderLen + VMUHeaderLen) bs))
            ((((bs.drop 26).take (bs.length - 30)).map Fin.val).sum % 2 ^ 32 =
              le32 (bs.drop (bs.length - 4))) with
        | none =>
          unfold VMUPacket.Data
          rw [if_pos hc, himg]
        | some i =>
          unfold decodeImage at himg
          rw [if_pos (by unfold HRDLHeaderLen VMUHeaderLen; simp; omega)] at himg
          exact absurd himg (by simp)
    · intro hc
      constructor
      · intro hbig
        cases htb : decodeTable
            ((List.drop (HRDLHeaderLen + VMUHeaderLen) bs))
            ((((bs.drop 26).take (bs.length - 30)).map Fin.val).sum % 2 ^ 32 =
              le32 (bs.drop (bs.length - 4))) with
        | none =>
          unfold decodeTable at htb
          rw [if_neg (by unfold HRDLHeaderLen VMUHeaderLen; simp; omega)] at htb
          exact absurd htb (by simp)
        | some tb =>
          unfold VMUPacket.Data
          rw [if_neg (by rw [hc]; unfold ChannelVic1 ChannelVic2 ChannelLRSD; omega),
              if_pos hc, htb]
          exact ⟨tb, rfl⟩
      · intro hshort
        cases htb : decodeTable
            ((List.drop (HRDLHeaderLen + VMUHeaderLen) bs))
            ((((bs.drop 26).take (bs.length - 30)).map Fin.val).sum % 2 ^ 32 =
              le32 (bs.drop (bs.length - 4))) with
        | none =>
          unfold VMUPacket.Data
          rw [if_neg (by rw [hc]; unfold ChannelVic1 ChannelVic2 ChannelLRSD; omega),
              if_pos hc, htb]
        | some tb =>
          unfold decodeTable at htb
          rw [if_pos (by unfold HRDLHeaderLen VMUHeaderLen; simp; omega)] at htb
          exact absurd htb (by simp)

theorem be64_none (l : List Byte) (h : l.length < 8) : be64 l = none := by
  match l with
  | b0 :: b1 :: b2 :: b3 :: b4 :: b5 :: b6 :: b7 :: rest =>
    rw [List.length_cons, List.length_cons, List.length_cons, List.length_cons,
        List.length_cons, List.length_cons, List.length_cons, List.length_cons] at h
    exact absurd h (by omega)
  | [] => rfl
  | [a0] => rfl
  | [a0, a1] => rfl
  | [a0, a1, a2] => rfl
  | [a0, a1, a2, a3] => rfl
  | [a0, a1, a2, a3, a4] => rfl
  | [a0, a1, a2, a3, a4, a5] => rfl
  | [a0, a1, a2, a3, a4, a5, a6] => rfl

theorem be32_lt (l : List Byte) : be32 l < 2 ^ 32 := by
  match l with
  | b0 :: b1 :: b2 :: b3 :: t =>
    have h0 := b0.isLt
    have h1 := b1.isLt
    have h2 := b2.isLt
    have h3 := b3.isLt
    have he : be32 (b0 :: b1 :: b2 :: b3 :: t) =
        b0.val * 16777216 + b1.val * 65536 + b2.val * 256 + b3.val := rfl
    rw [he]
    omega
  | [] => decide
  | [a0] =>
    have he : be32 [a0] = 0 := rfl
    rw [he]; decide
  | [a0, a1] =>
    have he : be32 [a0, a1] = 0 := rfl
    rw [he]; decide
  | [a0, a1, a2] =>
    have he : be32 [a0, a1, a2] = 0 := rfl
    rw [he]; decide

theorem shiftLeft32_lor_eq_add (h l : Nat) (hl : l < 2 ^ 32) :
    h <<< 32 ||| l = h * 2 ^ 32 + l := by
  have h2 : (2 : Nat) ^ 32 * h + l = 2 ^ 32 * h ||| l := Nat.mul_add_lt_is_or hl h
  rw [Nat.shiftLeft_eq, Nat.mul_comm h (2 ^ 32), ← h2, Nat.mul_comm]

/-- C8: PD identity.  scan.go's `PDPacket.Id` calls
`binary.BigEndian.Uint64` on the 6-byte UMI code and therefore panics
on every decoded PD packet (the code slice always has length 6); the
part_013 draft computes the claimed 48-bit identity
`(code[0:2] << 32) | code[2:6]` — equal to
`be16(code[0:2]) * 2^32 + be32(code[2:6])` — paired with `code[0]`,
and the sequence is the constant 0. -/
theorem C8_pd_identity :
    (∀ bs p, DecodePD bs = some p → p.UMI.code.length = 6 ∧ p.IdScanGo = none) ∧
    (∀ bs p, DecodePD bs = some p →
       p.IdP13 = (be16 (p.UMI.code.take 2) * 2 ^ 32 + be32 (p.UMI.code.drop 2),
                  nth p.UMI.code 0) ∧
       p.Sequence = 0) ∧
    (DecodePD (List.replicate 25 (0 : Byte))).map PDPacket.IdScanGo = some none := by
  have hcode : ∀ bs p, DecodePD bs = some p → p.UMI.code.length = 6 := by
    intro bs p hp
    unfold DecodePD at hp
    by_cases hlen : bs.length < UMIHeaderLen
    · rw [if_pos hlen] at hp
      exact absurd hp (by simp)
    · rw [if_neg hlen] at hp
      rw [Option.some_inj] at hp
      subst hp
      unfold UMIHeaderLen at hlen
      simp only [List.length_take, List.length_drop]
      omega
  refine ⟨?_, ?_, by decide⟩
  · intro bs p hp
    refine ⟨hcode bs p hp, ?_⟩
    unfold PDPacket.IdScanGo
    rw [be64_none p.UMI.code (by rw [hcode bs p hp]; omega)]
    rfl
  · intro bs p hp
    refine ⟨?_, rfl⟩
    show (be16 (p.UMI.code.take 2) <<< 32 ||| be32 (p.UMI.code.drop 2),
            nth p.UMI.code 0) = _
    rw [shiftLeft32_lor_eq_add _ _ (be32_lt _)]

/-- C5 counterexample: with window `[0, 300)`, a packet at t = 420 in
the first stream is written (not counted rogue) because the second
stream was already exhausted when it was reached: the drain path
performs no rogue check, refuting the claim that every packet outside
the window is counted as rogue and dropped. -/
theorem C5_merger_window_counterexample :
    Merger.Merge (fun _ _ => false) [⟨60, [1]⟩, ⟨420, [2]⟩] [⟨0, [3]⟩] 300 =
      some ({ Rogue := 0, Count := 3, Size := 3, Starts := 0, Ends := 300 },
            { sums := [[2], [1], [3]], sink := [[3], [1], [2]] }) ∧
    isRogue 420 0 300 = true ∧
    ([2] : List Byte) ∈ ([[3], [1], [2]] : List (List Byte)) := by
  refine ⟨?_, by decide, by decide⟩
  simp [Merger.Merge, mergeLoop, drain, writePacket, writePackets, noDuplicateWrite,
        isRogue, scanUntil, sortPackets, insertPacket, Five, NoDuplicate]

/-- C5 (amended): the merge window is `[low, low + span)` with `low`
the **second** stream's first packet timestamp truncated to the span
(span 0 defaults to five minutes), recorded in the statistics; while
both streams still have a pending packet, a head outside the window
(timestamp < low, = high, or > high) is counted rogue and dropped and
in-window heads are written — as in scenario S5, where the 00:07
packet is rogue-skipped and the 00:03 packet is written — but once one
stream is exhausted the other is drained unconditionally. -/
theorem C5_merger_window :
    (∀ (less : MPacket → MPacket → Bool) (src : List MPacket) (q1 : MPacket)
        (rest : List MPacket) (span : Nat),
       (Merger.Merge less src (q1 :: rest) span).map (fun r => (r.1.Starts, r.1.Ends)) =
         some (q1.ts - q1.ts % (if span = 0 then Five else span),
               q1.ts - q1.ts % (if span = 0 then Five else span) +
                 (if span = 0 then Five else span))) ∧
    (Merger.Merge (fun _ _ => false) [⟨420, [1]⟩, ⟨180, [2]⟩] [⟨0, [3]⟩, ⟨100, [4]⟩] 300 =
       some ({ Rogue := 1, Count := 3, Size := 3, Starts := 0, Ends := 300 },
             { sums := [[2], [4], [3]], sink := [[3], [4], [2]] })) ∧
    isRogue 420 0 300 = true ∧ isRogue 180 0 300 = false := by
  refine ⟨?_, ?_, by decide, by decide⟩
  · intro less src q1 rest span
    unfold Merger.Merge
    simp only [List.head?_cons, List.tail_cons]
    rw [Option.map_some']
    have hw := mergeLoop_window less
      (q1.ts - q1.ts % (if span = 0 then Five else span))
      (q1.ts - q1.ts % (if span = 0 then Five else span) + (if span = 0 then Five else span))
      src.head? src.tail (some q1) rest
      { Rogue := 0, Count := 0, Size := 0,
        Starts := q1.ts - q1.ts % (if span = 0 then Five else span),
        Ends := q1.ts - q1.ts % (if span = 0 then Five else span) +
          (if span = 0 then Five else span) }
      NoDuplicate
    rw [Option.some_inj]
    exact Prod.ext hw.1 hw.2
  · simp [Merger.Merge, mergeLoop, drain, writePacket, writePackets, noDuplicateWrite,
          isRogue, scanUntil, sortPackets, insertPacket, Five, NoDuplicate]

/-- C1 (amended): for a byte source that concatenates records whose
4-byte little-endian size field agrees with their length **and whose
length does not exceed `MaxBufferSize`**, the framing scanner emits
exactly those records, byte-identical and in order, and a trailing
truncated record (fewer than `size + 4` bytes left) produces no
emission; independently, every frame the scanner ever emits satisfies
`frame.len() = 4 + u32_le(frame[0..4])`. -/
theorem C1_framing_roundtrip :
    (∀ rs tail, (∀ r ∈ rs, goodRecord r ∧ r.length ≤ MaxBufferSize) →
        tail.length < 4 + le32 tail →
        (scanRun (concatRecords rs ++ tail)).1 = rs) ∧
    (∀ input, ∀ f ∈ (scanRun input).1, f.length = 4 + le32 f) :=
  ⟨scanRun_roundtrip, scanRun_discipline⟩

/-- C1 witness: scenario S1 of the specification — the record
`04 00 00 00 DE AD BE EF` followed by the truncated trailer
`04 00 00 00 DE AD` yields exactly the one 8-byte frame. -/
theorem C1_framing_roundtrip_witness :
    (scanRun (concatRecords [[4, 0, 0, 0, 222, 173, 190, 239]] ++
        [4, 0, 0, 0, 222, 173])).1 = [[4, 0, 0, 0, 222, 173, 190, 239]] :=
  C1_framing_roundtrip.1 _ _ (by decide) (by decide)

/-- C6 (amended): the maximum record size the framing scanner accepts
is `MaxBufferSize = 8 << 20` (8 MiB, not 32 MiB): a size field that
needs more than `MaxBufferSize` buffered bytes is the fatal
`bufio.ErrTooLong`, while any well-prefixed record within the limit is
emitted. -/
theorem C6_max_record_size :
    MaxBufferSize = 8 <<< 20 ∧
    (∀ input, MaxBufferSize ≤ input.length → MaxBufferSize < 4 + le32 input →
        scanRun input = ([], ScanEnd.tooLong)) ∧
    (∀ r rest, goodRecord r → r.length ≤ MaxBufferSize →
        scanRun (r ++ rest) = (r :: (scanRun rest).1, (scanRun rest).2)) :=
  ⟨rfl, scanRun_tooLong, scanRun_record⟩

/-- C6 witness: the 9 MiB record dies with `ErrTooLong`, a small
record is emitted. -/
theorem C6_max_record_size_witness :
    scanRun bigRecordB = ([], ScanEnd.tooLong) ∧
    scanRun ([4, 0, 0, 0, 9, 9, 9, 9] ++ [1, 2]) =
      ([4, 0, 0, 0, 9, 9, 9, 9] :: (scanRun [1, 2]).1, (scanRun [1, 2]).2) :=
  ⟨C6_max_record_size.2.1 bigRecordB (by rw [bigRecordB_len]; decide)
      (by rw [bigRecordB_le32]; decide),
   C6_max_record_size.2.2 _ _ (by decide) (by decide)⟩

/-- C2 witness: scenario S2 — TM sequences 7 then 10 give the gap
`last = 7, first = 10` whose `Missing` is the absolute sequence
difference (3). -/
theorem C2_gap_missing_witness :
    (⟨0x1A2, 0, 1, 7, 10⟩ : Gap).First =
        (TMPacket.Sequence ⟨0x1A2, 10, 0x11, 1, 0, []⟩ : Int) ∧
    (⟨0x1A2, 0, 1, 7, 10⟩ : Gap).Last =
        (TMPacket.Sequence ⟨0x1A2, 7, 0x11, 0, 0, []⟩ : Int) ∧
    (⟨0x1A2, 0, 1, 7, 10⟩ : Gap).Starts = 0 ∧
    (⟨0x1A2, 0, 1, 7, 10⟩ : Gap).Ends = 1 ∧
    Gap.Missing ⟨0x1A2, 0, 1, 7, 10⟩ =
      |(TMPacket.Sequence ⟨0x1A2, 10, 0x11, 1, 0, []⟩ : Int) -
        (TMPacket.Sequence ⟨0x1A2, 7, 0x11, 0, 0, []⟩ : Int)| :=
  C2_gap_missing ⟨0x1A2, 10, 0x11, 1, 0, []⟩ ⟨0x1A2, 7, 0x11, 0, 0, []⟩ (by decide)
    ⟨0x1A2, 0, 1, 7, 10⟩ (by decide)

/-- C4 witness: scenario S3 — TM sequence 16383 followed by 0 (same
APID and source, later timestamp) yields no gap, in both diff
directions and in both drafts. -/
theorem C4_tm_sequence_wrap_witness :
    TMPacket.Diff ⟨0x1A2, 0, 0x11, 5, 0, []⟩ ⟨0x1A2, 16383, 0x11, 0, 0, []⟩ = none ∧
    TMPacket.Diff ⟨0x1A2, 16383, 0x11, 0, 0, []⟩ ⟨0x1A2, 0, 0x11, 5, 0, []⟩ = none ∧
    TMPacket.DiffP13 ⟨0x1A2, 0, 0x11, 5, 0, []⟩ ⟨0x1A2, 16383, 0x11, 0, 0, []⟩ = none := by
  have h := C4_tm_sequence_wrap ⟨0x1A2, 16383, 0x11, 0, 0, []⟩ ⟨0x1A2, 0, 0x11, 5, 0, []⟩
    (by decide) (by decide) (by decide)
  exact ⟨h.1, h.2.1 (by decide), h.2.2 (by decide)⟩

/-- C3 witness: an all-zero VMU frame (checksum 0 = control 0) is not
errored, TM is never errored, and a PD frame with nonzero orbit is
errored. -/
theorem C3_error_flags_witness :
    (decodeVMU (List.replicate 42 (0 : Byte))).map VMUPacket.ErrorP13 = some false ∧
    TMPacket.Error ⟨0, 0, 0, 0, 0, []⟩ = false ∧
    (DecodePD ([0, 0, 0, 0, 0, 0, 0, 0, 9] ++ List.replicate 16 (0 : Byte))).map
        PDPacket.Error = some true :=
  ⟨((C3_error_flags.1 (List.replicate 42 (0 : Byte)) (by decide)).1).trans (by decide),
   C3_error_flags.2.1 _,
   (C3_error_flags.2.2 ([0, 0, 0, 0, 0, 0, 0, 0, 9] ++ List.replicate 16 (0 : Byte))
       (by decide)).trans (by decide)⟩

/-- C7 witness: a well-framed 118-byte VMU packet on channel VIC1
decodes to an `Image` with no error. -/
theorem C7_vmu_data_dispatch_witness :
    ∃ i, VMUPacket.Data
        ⟨⟨0, 0, 0, 0⟩, ⟨0, 0, 1, 0, 0⟩,
         List.replicate 26 (0 : Byte) ++ [1] ++ List.replicate 91 (0 : Byte), 0, 1⟩ =
      (some (HRPacket.image i), false) := by
  have hd : decodeVMU (List.replicate 26 (0 : Byte) ++ [1] ++ List.replicate 91 (0 : Byte)) =
      some ⟨⟨0, 0, 0, 0⟩, ⟨0, 0, 1, 0, 0⟩,
            List.replicate 26 (0 : Byte) ++ [1] ++ List.replicate 91 (0 : Byte), 0, 1⟩ := by
    decide
  exact ((C7_vmu_data_dispatch _ _ hd).2.1 (Or.inl rfl)).1 (by decide)

/-- C8 witness: the all-zero 25-byte PD frame — the scan.go identity
faults (`none`), the part_013 identity is the 48-bit code with the
code's first byte, and the sequence is 0. -/
theorem C8_pd_identity_witness :
    PDPacket.IdScanGo ⟨⟨0, 0, 0, [0, 0, 0, 0, 0, 0], 0, 0, 0⟩,
        List.replicate 25 (0 : Byte)⟩ = none ∧
    PDPacket.IdP13 ⟨⟨0, 0, 0, [0, 0, 0, 0, 0, 0], 0, 0, 0⟩,
        List.replicate 25 (0 : Byte)⟩ =
      (be16 (([0, 0, 0, 0, 0, 0] : List Byte).take 2) * 2 ^ 32 +
         be32 (([0, 0, 0, 0, 0, 0] : List Byte).drop 2),
       nth [0, 0, 0, 0, 0, 0] 0) ∧
    PDPacket.Sequence ⟨⟨0, 0, 0, [0, 0, 0, 0, 0, 0], 0, 0, 0⟩,
        List.replicate 25 (0 : Byte)⟩ = 0 := by
  have hd : DecodePD (List.replicate 25 (0 : Byte)) =
      some ⟨⟨0, 0, 0, [0, 0, 0, 0, 0, 0], 0, 0, 0⟩, List.replicate 25 (0 : Byte)⟩ := by
    decide
  exact ⟨(C8_pd_identity.1 _ _ hd).2, (C8_pd_identity.2.1 _ _ hd).1,
         (C8_pd_identity.2.1 _ _ hd).2⟩
